import Mathlib

/-!
Verification of the `dot`/`kon` coding-assistant core against its
natural-language specification.

The Python sources are shallowly embedded:

* Python `int` is `Int` (arbitrary precision, may be negative).
* Python `str` is Lean `String` where only code-point content matters, and
  `List Nat` (`PyStr`) in the sanitization model, because Python strings may
  hold lone UTF-16 surrogates (U+D800..U+DFFF) which are not valid Lean
  `Char`s.  In the streaming-parser model Python strings are `List Char`
  (`Str`), which makes prefix/suffix reasoning direct; none of the claims
  there depend on surrogate content.
* Python dicts used as insertion-ordered maps are association lists updated
  in place.
* `None` is `Option.none`; Python truthiness of `str | None` values is made
  explicit (`none` and `""` are falsy).
* Async generators are recursive functions from the list of incoming wire
  events to the list of yielded stream parts; an exception raised while a
  wire event is being handled is a distinguished event constructor, matching
  the `except Exception` handler that wraps each parser loop.
-/

namespace Spec2Proof

-- =================================================================================================
-- kon/core/types.py — canonical types
-- =================================================================================================

/-- `StopReason` from kon/core/types.py. -/
inductive StopReason where
  | stop
  | length
  | toolUse
  | error
  | interrupted
deriving DecidableEq, Repr

/-- `Usage` from kon/core/types.py: all four token counters default to 0
and are Python ints. -/
structure Usage where
  input_tokens : Int := 0
  output_tokens : Int := 0
  cache_read_tokens : Int := 0
  cache_write_tokens : Int := 0
deriving DecidableEq, Repr

/-- `ThinkPart` from kon/core/types.py (`think` text plus optional opaque
signature).  The text is a Lean string; signature `none` models Python
`None`. -/
structure ThinkPart where
  think : String
  signature : Option String := none
deriving DecidableEq, Repr

/-- Python truthiness of a `str | None` value: `None` and `""` are falsy. -/
def strTruthy : Option String → Bool
  | none => false
  | some s => s ≠ ""

/-- `ThinkPart.merge` from kon/core/types.py:
`signature = self.signature or other.signature`, concatenated text. -/
def ThinkPart.merge (self other : ThinkPart) : ThinkPart :=
  { think := self.think ++ other.think
    signature := if strTruthy self.signature then self.signature else other.signature }

-- =================================================================================================
-- kon/core/compaction.py — overflow predicate
-- =================================================================================================

/-- `is_overflow` from kon/core/compaction.py. -/
def is_overflow (usage : Usage) (context_window max_output_tokens buffer_tokens : Int) : Bool :=
  let count := usage.input_tokens + usage.output_tokens
    + usage.cache_read_tokens + usage.cache_write_tokens
  let reserved := min buffer_tokens max_output_tokens
  let usable := context_window - reserved
  count ≥ usable

-- =================================================================================================
-- kon/core/types.py — canonical messages
-- =================================================================================================

/-- A Python string as a sequence of Unicode code points.  Lone UTF-16
surrogates (U+D800..U+DFFF) are legal in Python strings but are not valid
Lean `Char`s, so message text is embedded as raw code points. -/
abbrev PyStr := List Nat

/-- One element of a `UserMessage` content list: `TextContent` or
`ImageContent` (base64 data + mime type). -/
inductive UserPart where
  | text (t : PyStr)
  | image (data mime : PyStr)
deriving DecidableEq, Repr

/-- One element of an `AssistantMessage` content list: `TextContent`,
`ThinkingContent`, or `ToolCall`.  A `ToolCall`'s `arguments` dict is
carried as its `json.dumps` serialization, which is all the request
builders use. -/
inductive AssistantPart where
  | text (t : PyStr)
  | thinking (t : PyStr) (signature : Option PyStr)
  | toolCall (id name argsJson : PyStr)
deriving DecidableEq, Repr

/-- One element of a `ToolResultMessage` content list. -/
inductive TrPart where
  | text (t : PyStr)
  | image (data mime : PyStr)
deriving DecidableEq, Repr

/-- Canonical `Message` from kon/core/types.py.  `UserMessage.content` is
either a plain string or a list of parts. -/
inductive Message where
  | user (content : PyStr ⊕ List UserPart)
  | assistant (content : List AssistantPart)
  | toolResult (toolCallId toolName : PyStr) (content : List TrPart) (isError : Bool)
deriving DecidableEq, Repr

-- =================================================================================================
-- dot/llm/providers/github_copilot_headers.py
-- =================================================================================================

/-- `infer_copilot_initiator`: `"user"` for an empty list or a last
`UserMessage`, otherwise `"agent"`. -/
def infer_copilot_initiator (messages : List Message) : String :=
  match messages.getLast? with
  | none => "user"
  | some (Message.user _) => "user"
  | some _ => "agent"

/-- Is a user-content part an `ImageContent`? -/
def UserPart.isImage : UserPart → Bool
  | UserPart.image _ _ => true
  | _ => false

/-- Is a tool-result part an `ImageContent`? -/
def TrPart.isImage : TrPart → Bool
  | TrPart.image _ _ => true
  | _ => false

/-- `has_copilot_vision_input`: scans the messages; a `UserMessage` with
list content containing an image, or a `ToolResultMessage` containing an
image, makes it true. -/
def has_copilot_vision_input (messages : List Message) : Bool :=
  messages.any fun msg =>
    match msg with
    | Message.user (Sum.inl _) => false
    | Message.user (Sum.inr parts) => parts.any UserPart.isImage
    | Message.assistant _ => false
    | Message.toolResult _ _ content _ => content.any TrPart.isImage

/-- The dynamic header dict built by `build_copilot_dynamic_headers`:
`X-Initiator` and `Openai-Intent` are always present,
`Copilot-Vision-Request: true` is present iff the flag is set. -/
structure CopilotDynamicHeaders where
  xInitiator : String
  openaiIntent : String
  copilotVisionRequest : Bool
deriving DecidableEq, Repr

/-- `build_copilot_dynamic_headers` from github_copilot_headers.py. -/
def build_copilot_dynamic_headers (messages : List Message) : CopilotDynamicHeaders :=
  { xInitiator := infer_copilot_initiator messages
    openaiIntent := "conversation-edits"
    copilotVisionRequest := has_copilot_vision_input messages }

/-- Spec-side predicate for C9 (from the claim's words): does this message
contain an `ImageContent` part?  A `UserMessage` with plain-string content
and an `AssistantMessage` cannot contain one (the canonical type admits no
image part there). -/
def messageContainsImage : Message → Bool
  | Message.user (Sum.inl _) => false
  | Message.user (Sum.inr parts) => parts.any UserPart.isImage
  | Message.assistant _ => false
  | Message.toolResult _ _ content _ => content.any TrPart.isImage

-- =================================================================================================
-- kon/llm/oauth/copilot.py and kon/llm/oauth/openai.py — credential stores
-- =================================================================================================

/-- `CopilotCredentials` from kon/llm/oauth/copilot.py. -/
structure CopilotCredentials where
  githubToken : String
  copilotToken : String
  expiresAt : Int
  enterpriseDomain : Option String := none
deriving DecidableEq, Repr

/-- `OpenAICredentials` from kon/llm/oauth/openai.py. -/
structure OpenAICredentials where
  refresh : String
  access : String
  expires : Int
  accountId : String
deriving DecidableEq, Repr

/-- `get_valid_token` from kon/llm/oauth/copilot.py.  `creds` is the result
of `load_credentials()`, `nowMs` is `time.time() * 1000`, and
`refreshOutcome` is the outcome of `refresh_copilot_token`: `none` models
the call raising (caught and turned into `None`), `some c` a successful
refresh returning `c`. -/
def get_valid_token (creds : Option CopilotCredentials) (nowMs : Int)
    (refreshOutcome : Option CopilotCredentials) : Option String :=
  match creds with
  | none => none
  | some c =>
    if nowMs ≥ c.expiresAt - 60000 then
      match refreshOutcome with
      | none => none
      | some r => some r.copilotToken
    else
      some c.copilotToken

/-- `get_valid_openai_token` from kon/llm/oauth/openai.py, embedded the
same way as `get_valid_token`. -/
def get_valid_openai_token (creds : Option OpenAICredentials) (nowMs : Int)
    (refreshOutcome : Option OpenAICredentials) : Option String :=
  match creds with
  | none => none
  | some c =>
    if nowMs ≥ c.expires - 60000 then
      match refreshOutcome with
      | none => none
      | some r => some r.access
    else
      some c.access

-- =================================================================================================
-- kon/llm/oauth/openai.py — PKCE loopback callback and manual fallback
-- =================================================================================================

/-- Outcome of one request handled by the loopback callback server in
`_start_callback_server`: a 404 for a wrong path, a 400 ("State mismatch")
when the state does not match or the code is missing/empty, or a 200
success page together with the authorization code that resolves the code
future.  Only a `success` outcome ever produces a code for the token
exchange. -/
inductive CallbackResult where
  | notFound
  | badRequest
  | success (code : String)
deriving DecidableEq, Repr

/-- The request-handling logic of `_start_callback_server`'s `handler`,
on an already-parsed request (`path`, and the first `state`/`code` query
values, `none` when absent).  The raw HTTP request-line parsing is not
modelled. -/
def handleCallbackRequest (issuedState : String) (path : String)
    (qState qCode : Option String) : CallbackResult :=
  if path ≠ "/auth/callback" then
    CallbackResult.notFound
  else if qState ≠ some issuedState ∨ strTruthy qCode = false then
    CallbackResult.badRequest
  else
    CallbackResult.success (qCode.getD "")

/-- The manual-input branch of `login` in kon/llm/oauth/openai.py: given
the `(code, state)` pair returned by `_parse_manual_input`, raise
`RuntimeError("OpenAI OAuth state mismatch")` when a truthy parsed state
differs from the issued state, otherwise continue with the parsed code
(which is exchanged only if non-`None`). -/
def manualLoginStep (issuedState : String) (parsedCode parsedState : Option String) :
    Except String (Option String) :=
  if strTruthy parsedState ∧ parsedState ≠ some issuedState then
    Except.error "OpenAI OAuth state mismatch"
  else
    Except.ok parsedCode

-- =================================================================================================
-- dot/context/skills.py — skill validation and loading
-- =================================================================================================

/-- `SkillWarning` from dot/context/skills.py. -/
structure SkillWarning where
  skillPath : String
  message : String
deriving DecidableEq, Repr

/-- `Skill` from dot/context/skills.py. -/
structure Skill where
  name : String
  description : String
  filePath : String
  baseDir : String
deriving DecidableEq, Repr

/-- Character class `[a-z0-9-]` of the name pattern in `_validate_skill`. -/
def nameCharOk (c : Char) : Bool :=
  ('a' ≤ c && c ≤ 'z') || ('0' ≤ c && c ≤ '9') || c = '-'

/-- Python `re.match(r"^[a-z0-9-]+$", name)` as a Boolean: one or more
characters of the class.  Python's `$` also matches just before a single
trailing newline, which is modelled faithfully. -/
def pyMatchLowerKebab (name : String) : Bool :=
  let cs := name.data
  let core := if cs.getLast? = some '\n' then cs.dropLast else cs
  core ≠ [] && core.all nameCharOk

/-- Whitespace stripped by Python `str.strip()` (the ASCII part; skill
descriptions with only exotic Unicode spaces are not modelled). -/
def pyIsSpace (c : Char) : Bool :=
  c = ' ' || c = '\t' || c = '\n' || c = '\r' || c = Char.ofNat 11 || c = Char.ofNat 12

/-- The condition `not description or not description.strip()` used both in
`_validate_skill` and in `_load_skill_from_dir`: the description is empty
or consists of whitespace only. -/
def descriptionMissing (d : String) : Bool :=
  d.data.all pyIsSpace

/-- `"--" in name`. -/
def hasDoubleHyphen : List Char → Bool
  | [] => false
  | [_] => false
  | a :: b :: rest => (a = '-' && b = '-') || hasDoubleHyphen (b :: rest)

/-- `_validate_skill` from dot/context/skills.py: one warning per failed
check, in source order. -/
def validate_skill (name description parentDirName filePath : String) : List SkillWarning :=
  (if name ≠ parentDirName then
    [⟨filePath, "name \"" ++ name ++ "\" does not match directory \"" ++ parentDirName ++ "\""⟩]
   else []) ++
  (if name.length > 64 then [⟨filePath, "name exceeds 64 characters"⟩] else []) ++
  (if pyMatchLowerKebab name = false then
    [⟨filePath, "name must be lowercase a-z, 0-9, hyphens only"⟩]
   else []) ++
  (if name.data.head? = some '-' || name.data.getLast? = some '-' then
    [⟨filePath, "name must not start or end with hyphen"⟩]
   else []) ++
  (if hasDoubleHyphen name.data then
    [⟨filePath, "name must not contain consecutive hyphens"⟩]
   else []) ++
  (if descriptionMissing description then [⟨filePath, "description is required"⟩] else []) ++
  (if description.length > 1024 then [⟨filePath, "description exceeds 1024 characters"⟩] else [])

/-- `frontmatter.get("name") or parent_dir_name` in `_load_skill_from_dir`. -/
def resolveSkillName (fmName : Option String) (parentDirName : String) : String :=
  if strTruthy fmName then fmName.getD "" else parentDirName

/-- The decision core of `_load_skill_from_dir`, after `SKILL.md` has been
read and its frontmatter parsed: `fmName`/`fmDescription` are the
frontmatter values (`none` when absent), and the result is the
`(skill, warnings)` pair the function returns.  File-system access and the
`except` fallback are not modelled. -/
def load_skill_decision (fmName fmDescription : Option String)
    (parentDirName filePath baseDir : String) : Option Skill × List SkillWarning :=
  let name := resolveSkillName fmName parentDirName
  let description := fmDescription.getD ""
  let warnings := validate_skill name description parentDirName filePath
  if descriptionMissing description then
    (none, warnings)
  else
    (some ⟨name, description, filePath, baseDir⟩, warnings)

-- =================================================================================================
-- Streaming parsers: dot/llm/providers/openai_responses.py and openai_codex_responses.py
-- =================================================================================================

/-- A Python string in the streaming-parser model, as a list of characters
(startswith = list prefix, slicing = drop). -/
abbrev Str := List Char

/-- The stream parts yielded by a provider's stream parser (kon/core/types.py),
with text as `Str`. -/
inductive SPart where
  | textPart (text : Str)
  | thinkPart (think : Str) (signature : Option Str)
  | toolCallStart (index : Nat) (id name : Str)
  | toolCallDelta (index : Nat) (argumentsDelta : Str)
  | streamDone (stopReason : StopReason)
  | streamError (error : Str)
deriving DecidableEq, Repr

/-- `StreamDone` and `StreamError` are the terminal parts. -/
def SPart.isTerminal : SPart → Bool
  | SPart.streamDone _ => true
  | SPart.streamError _ => true
  | _ => false

/-- The per-call accumulator dict `{"id", "name", "arguments", "index"}`. -/
structure ToolCallData where
  id : Str
  name : Str
  arguments : Str
  index : Nat
deriving DecidableEq, Repr

/-- In-place update (or append) of an insertion-ordered Python dict
modelled as an association list. -/
def assocSet {α : Type} (k : Str) (v : α) : List (Str × α) → List (Str × α)
  | [] => [(k, v)]
  | (k', v') :: rest => if k' = k then (k, v) :: rest else (k', v') :: assocSet k v rest

/-- `dict.get(k)` on an association list. -/
def assocGet {α : Type} (k : Str) : List (Str × α) → Option α
  | [] => none
  | (k', v') :: rest => if k' = k then some v' else assocGet k rest

/-- Argument reconciliation in the `response.function_call_arguments.done`
branch of `OpenAIResponsesProvider._process_stream`: given the accumulated
arguments and the authoritative final string, return the new accumulator
value and the list of `arguments_delta` strings emitted. -/
def reconcileArgsDone (current finalArgs : Str) : Str × List Str :=
  if current.isPrefixOf finalArgs then
    let missing := finalArgs.drop current.length
    if missing = [] then (current, [])
    else (current ++ missing, [missing])
  else
    (finalArgs, [finalArgs])

/-- Same reconciliation in the `response.output_item.done` branch; the
overwrite arm is additionally guarded by `final_args != current_args`
(unreachable difference, since equal strings take the first arm). -/
def reconcileItemDone (current finalArgs : Str) : Str × List Str :=
  if current.isPrefixOf finalArgs then
    let missing := finalArgs.drop current.length
    if missing = [] then (current, [])
    else (current ++ missing, [missing])
  else if finalArgs ≠ current then
    (finalArgs, [finalArgs])
  else
    (current, [])

/-- Wire events consumed by `OpenAIResponsesProvider._process_stream`,
with the attributes the parser reads pre-projected from the SDK objects
(`none` = absent attribute or `None`).  In `itemAddedFunctionCall` and
`itemDoneFunctionCall` the `itemId` is already defaulted per
`item.id or ""`.  `raised` models a Python exception thrown while the
event is handled, caught by the surrounding `except Exception`.  The
usage/response-id latching onto the out-of-band `LLMStream` handle in the
`response.completed` branch sets no yielded part and is not modelled. -/
inductive RespEvent where
  | reasoningDelta (delta : Str)
  | outputTextDelta (delta : Str)
  | itemAddedFunctionCall (callId itemId name : Str) (args : Option Str)
  | itemAddedOther
  | argsDelta (itemId : Option Str) (delta : Str)
  | argsDone (itemId : Option Str) (finalArgs : Option Str)
  | itemDoneFunctionCall (callId itemId : Str) (args : Option Str)
  | itemDoneOther
  | completed (status : Option Str)
  | errorEvent (code msg : Str)
  | failed
  | unknown
  | raised (msg : Str)
deriving DecidableEq, Repr

/-- Parser state of `_process_stream` between events. -/
structure RespStreamState where
  currentThinking : Str
  currentText : Str
  toolCalls : List (Str × ToolCallData)
  keyByItemId : List (Str × Str)
  currentKey : Option Str
  nextIndex : Nat
deriving DecidableEq, Repr

/-- Initial parser state. -/
def initRespStreamState : RespStreamState :=
  { currentThinking := [], currentText := [], toolCalls := [], keyByItemId := []
    currentKey := none, nextIndex := 0 }

/-- `call_key_by_item_id.get(item_id) if item_id else current_tool_call_key`
(Python truthiness: `None` and `""` fall back to the current key). -/
def resolveCallKey (st : RespStreamState) (itemId : Option Str) : Option Str :=
  match itemId with
  | none => st.currentKey
  | some i => if i = [] then st.currentKey else assocGet i st.keyByItemId

/-- `_map_stop_reason` of `OpenAIResponsesProvider`. -/
def mapRespStopReason (status : Option Str) : StopReason :=
  match status with
  | none => StopReason.stop
  | some s =>
    if s = [] then StopReason.stop
    else if s = "completed".data then StopReason.stop
    else if s = "incomplete".data then StopReason.length
    else if s = "failed".data ∨ s = "cancelled".data then StopReason.error
    else StopReason.stop

/-- One iteration of the `async for event in response_stream` loop of
`OpenAIResponsesProvider._process_stream`: the parts yielded for this
event, and the successor state (`none` when the generator returns, i.e.
after a terminal part). -/
def stepRespEvent (st : RespStreamState) : RespEvent → List SPart × Option RespStreamState
  | RespEvent.reasoningDelta d =>
    ([SPart.thinkPart d none], some { st with currentThinking := st.currentThinking ++ d })
  | RespEvent.outputTextDelta d =>
    ([SPart.textPart d], some { st with currentText := st.currentText ++ d })
  | RespEvent.itemAddedFunctionCall callId itemId name args =>
    let key := callId ++ '|' :: itemId
    let data : ToolCallData := ⟨key, name, args.getD [], st.nextIndex⟩
    ([SPart.toolCallStart st.nextIndex key name],
     some { st with
       toolCalls := assocSet key data st.toolCalls
       keyByItemId := if itemId ≠ [] then assocSet itemId key st.keyByItemId else st.keyByItemId
       currentKey := some key
       nextIndex := st.nextIndex + 1 })
  | RespEvent.itemAddedOther => ([], some st)
  | RespEvent.argsDelta itemId delta =>
    (match resolveCallKey st itemId with
     | none => ([], some st)
     | some k =>
       if k = [] then ([], some st)
       else
         match assocGet k st.toolCalls with
         | none => ([], some st)
         | some data =>
           ([SPart.toolCallDelta data.index delta],
            some { st with
              toolCalls := assocSet k { data with arguments := data.arguments ++ delta }
                st.toolCalls }))
  | RespEvent.argsDone itemId finalArgs =>
    (match resolveCallKey st itemId with
     | none => ([], some st)
     | some k =>
       if k = [] then ([], some st)
       else
         match assocGet k st.toolCalls with
         | none => ([], some st)
         | some data =>
           match finalArgs with
           | none => ([], some st)
           | some fin =>
             let r := reconcileArgsDone data.arguments fin
             (r.2.map (SPart.toolCallDelta data.index),
              some { st with
                toolCalls := assocSet k { data with arguments := r.1 } st.toolCalls }))
  | RespEvent.itemDoneFunctionCall callId itemId args =>
    let callId' := callId ++ '|' :: itemId
    let key : Option Str :=
      if (assocGet callId' st.toolCalls).isSome then some callId'
      else if itemId ≠ [] ∧ (assocGet itemId st.keyByItemId).isSome then
        assocGet itemId st.keyByItemId
      else st.currentKey
    (match key with
     | none => ([], some st)
     | some k =>
       if k = [] then ([], some st)
       else
         match assocGet k st.toolCalls with
         | none => ([], some st)
         | some data =>
           match args with
           | none => ([], some st)
           | some fin =>
             let r := reconcileItemDone data.arguments fin
             (r.2.map (SPart.toolCallDelta data.index),
              some { st with
                toolCalls := assocSet k { data with arguments := r.1 } st.toolCalls }))
  | RespEvent.itemDoneOther => ([], some st)
  | RespEvent.completed status =>
    let sr := mapRespStopReason status
    let sr' := if st.toolCalls ≠ [] ∧ sr = StopReason.stop then StopReason.toolUse else sr
    ([SPart.streamDone sr'], none)
  | RespEvent.errorEvent code msg =>
    ([SPart.streamError ("Error Code ".data ++ code ++ ": ".data ++ msg)], none)
  | RespEvent.failed => ([SPart.streamError "Response failed".data], none)
  | RespEvent.unknown => ([], some st)
  | RespEvent.raised msg => ([SPart.streamError msg], none)

/-- The whole `_process_stream` generator over a list of wire events. -/
def processRespEvents (st : RespStreamState) : List RespEvent → List SPart
  | [] => []
  | e :: rest =>
    match stepRespEvent st e with
    | (parts, none) => parts
    | (parts, some st') => parts ++ processRespEvents st' rest

/-- Parsed SSE events consumed by
`OpenAICodexResponsesProvider._stream_codex` (JSON dicts: a field is
`none` when absent or not of the `isinstance`-checked type). -/
inductive CodexEvent where
  | reasoningDelta (delta : Option Str)
  | outputTextDelta (delta : Option Str)
  | itemAddedFunctionCall (callId itemId name : Option Str)
  | itemAddedOther
  | argsDelta (delta : Option Str)
  | completed (response : Option (Option Str))
  | failedOrError (message : Option Str)
  | unknown
  | raised (msg : Str)
deriving DecidableEq, Repr

/-- Parser state of `_stream_codex` between events. -/
structure CodexStreamState where
  currentThinking : Str
  currentText : Str
  toolCalls : List (Str × ToolCallData)
  lastToolCallId : Option Str
  nextIndex : Nat
deriving DecidableEq, Repr

/-- Initial Codex parser state. -/
def initCodexStreamState : CodexStreamState :=
  { currentThinking := [], currentText := [], toolCalls := [], lastToolCallId := none
    nextIndex := 0 }

/-- `_map_stop_reason` of `OpenAICodexResponsesProvider`; a missing or
non-string status compares unequal to every literal and falls through to
`STOP`. -/
def mapCodexStopReason (status : Option Str) : StopReason :=
  if status = some "completed".data then StopReason.stop
  else if status = some "incomplete".data then StopReason.length
  else if status = some "failed".data ∨ status = some "cancelled".data then StopReason.error
  else StopReason.stop

/-- One iteration of the event loop of `_stream_codex`: parts yielded and
successor state (`none` when the generator returns).  The usage and
response-id latching in the `response.completed` branch is not modelled
(it yields nothing). -/
def stepCodexEvent (st : CodexStreamState) : CodexEvent → List SPart × Option CodexStreamState
  | CodexEvent.reasoningDelta d =>
    (match d with
     | none => ([], some st)
     | some d =>
       ([SPart.thinkPart d none], some { st with currentThinking := st.currentThinking ++ d }))
  | CodexEvent.outputTextDelta d =>
    (match d with
     | none => ([], some st)
     | some d => ([SPart.textPart d], some { st with currentText := st.currentText ++ d }))
  | CodexEvent.itemAddedFunctionCall callId itemId name =>
    (match callId, name with
     | some c, some n =>
       let fullId := match itemId with
         | some i => c ++ '|' :: i
         | none => c
       ([SPart.toolCallStart st.nextIndex fullId n],
        some { st with
          toolCalls := assocSet fullId ⟨fullId, n, [], st.nextIndex⟩ st.toolCalls
          lastToolCallId := some fullId
          nextIndex := st.nextIndex + 1 })
     | _, _ => ([], some st))
  | CodexEvent.itemAddedOther => ([], some st)
  | CodexEvent.argsDelta d =>
    (match d, st.lastToolCallId with
     | some delta, some last =>
       if last = [] then ([], some st)
       else
         match assocGet last st.toolCalls with
         | none => ([], some st)
         | some data =>
           ([SPart.toolCallDelta data.index delta],
            some { st with
              toolCalls := assocSet last { data with arguments := data.arguments ++ delta }
                st.toolCalls })
     | _, _ => ([], some st))
  | CodexEvent.completed response =>
    (match response with
     | none => ([], some st)
     | some status =>
       let sr := mapCodexStopReason status
       let sr' := if st.toolCalls ≠ [] ∧ sr = StopReason.stop then StopReason.toolUse else sr
       ([SPart.streamDone sr'], none))
  | CodexEvent.failedOrError message =>
    ([SPart.streamError (message.getD "Codex response failed".data)], none)
  | CodexEvent.unknown => ([], some st)
  | CodexEvent.raised msg => ([SPart.streamError msg], none)

/-- The event loop of `_stream_codex` over a list of parsed SSE events. -/
def processCodexEvents (st : CodexStreamState) : List CodexEvent → List SPart
  | [] => []
  | e :: rest =>
    match stepCodexEvent st e with
    | (parts, none) => parts
    | (parts, some st') => parts ++ processCodexEvents st' rest

/-- The whole `_stream_codex` body: the HTTP retry loop either fails after
retries — yielding a single `StreamError` (`preError = some e`) and
returning — or succeeds, after which the SSE events are parsed. -/
def streamCodex (preError : Option Str) (events : List CodexEvent) : List SPart :=
  match preError with
  | some e => [SPart.streamError e]
  | none => processCodexEvents initCodexStreamState events

-- =================================================================================================
-- kon/llm/providers/sanitize.py and the request builders that use it
-- =================================================================================================

/-- Is this code point a lone UTF-16 surrogate (U+D800..U+DFFF)? -/
def isSurrogateCode (c : Nat) : Bool :=
  0xD800 ≤ c && c ≤ 0xDFFF

/-- `sanitize_surrogates` from kon/llm/providers/sanitize.py: replace
every surrogate code point with U+FFFD. -/
def sanitize_surrogates (t : PyStr) : PyStr :=
  t.map fun c => if isSurrogateCode c then 0xFFFD else c

/-- Spec-side predicate: the text holds no lone surrogate. -/
def surrogateFree (t : PyStr) : Bool :=
  t.all fun c => !isSurrogateCode c

/-- A Lean string literal as a `PyStr` (Lean `Char`s are valid scalar
values, so such texts are always surrogate-free). -/
def pyOfString (s : String) : PyStr :=
  s.data.map Char.toNat

/-- One content element of a Responses-API input message. -/
inductive RespInputPart where
  | inputText (t : PyStr)
  | inputImage (mime data : PyStr)
deriving DecidableEq, Repr

/-- One item of the `input` array built by
`OpenAIResponsesProvider._convert_messages`.  `reasoning raw` stands for
the item obtained from `json.loads(block.signature)` (the parse result is
opaque here; the builder appends it verbatim on success). -/
inductive RespItem where
  | devMessage (t : PyStr)
  | userMessage (parts : List RespInputPart)
  | assistantText (t : PyStr)
  | reasoning (raw : PyStr)
  | functionCall (itemId : Option PyStr) (callId name argsJson : PyStr)
  | functionCallOutput (callId output : PyStr)
deriving DecidableEq, Repr

/-- Python truthiness of a `str | None` for `PyStr`. -/
def pstrTruthy : Option PyStr → Bool
  | none => false
  | some s => s ≠ []

/-- `block.id.split("|")` in `_convert_messages`, for ids of the form
`call_id|item_id` produced by the stream parser (exactly one `'|'`, code
point 124; Python raises on two-or-more pipes, which is unreachable for
parser-produced ids and not modelled). -/
def splitPipeOnce (s : PyStr) : PyStr × Option PyStr :=
  if 124 ∈ s then (s.takeWhile (· ≠ 124), some ((s.dropWhile (· ≠ 124)).drop 1))
  else (s, none)

/-- `"\n".join(texts)` (code point 10). -/
def joinNewline : List PyStr → PyStr
  | [] => []
  | [t] => t
  | t :: u :: rest => t ++ 10 :: joinNewline (u :: rest)

/-- `_create_image_user_message`: a user message with a fixed caption and
the pending tool-result images (`(mime, data)` pairs). -/
def create_image_user_message (images : List (PyStr × PyStr)) : RespItem :=
  RespItem.userMessage
    (RespInputPart.inputText (pyOfString "Attached image(s) from tool result:")
      :: images.map fun mi => RespInputPart.inputImage mi.1 mi.2)

/-- `if pending_images: result.append(_create_image_user_message(...))`. -/
def flushPendingImages (pending : List (PyStr × PyStr)) : List RespItem :=
  if pending ≠ [] then [create_image_user_message pending] else []

/-- The message loop of `OpenAIResponsesProvider._convert_messages`,
carrying `pending_images`.  `jsonOk sig` models whether
`json.loads(block.signature)` succeeds (on failure the builder `pass`es). -/
def convertRespLoop (jsonOk : PyStr → Bool) :
    List Message → List (PyStr × PyStr) → List RespItem
  | [], pending => flushPendingImages pending
  | Message.user content :: rest, pending =>
    let items := match content with
      | Sum.inl s =>
        [RespItem.userMessage [RespInputPart.inputText (sanitize_surrogates s)]]
      | Sum.inr parts =>
        let cp := parts.map fun p =>
          match p with
          | UserPart.text t => RespInputPart.inputText (sanitize_surrogates t)
          | UserPart.image data mime => RespInputPart.inputImage mime data
        if cp ≠ [] then [RespItem.userMessage cp] else []
    flushPendingImages pending ++ items ++ convertRespLoop jsonOk rest []
  | Message.assistant parts :: rest, pending =>
    let items := parts.flatMap fun b =>
      match b with
      | AssistantPart.thinking _ sig =>
        match sig with
        | some s => if s ≠ [] ∧ jsonOk s then [RespItem.reasoning s] else []
        | none => []
      | AssistantPart.text t => [RespItem.assistantText t]
      | AssistantPart.toolCall id name argsJson =>
        let ci := splitPipeOnce id
        [RespItem.functionCall ci.2 ci.1 name argsJson]
    flushPendingImages pending ++ items ++ convertRespLoop jsonOk rest []
  | Message.toolResult toolCallId _ content _ :: rest, pending =>
    let textParts := content.filterMap fun p =>
      match p with
      | TrPart.text t => some t
      | _ => none
    let callId := toolCallId.takeWhile (· ≠ 124)
    let output := if textParts ≠ [] then joinNewline textParts else pyOfString "(see attached)"
    let newImages := content.filterMap fun p =>
      match p with
      | TrPart.image data mime => some (mime, data)
      | _ => none
    RespItem.functionCallOutput callId output
      :: convertRespLoop jsonOk rest (pending ++ newImages)

/-- `OpenAIResponsesProvider._convert_messages`: optional sanitized
`developer` message, then the message loop with no pending images. -/
def convert_messages_responses (jsonOk : PyStr → Bool) (system_prompt : Option PyStr)
    (messages : List Message) : List RespItem :=
  (match system_prompt with
   | some sp => if sp ≠ [] then [RespItem.devMessage (sanitize_surrogates sp)] else []
   | none => []) ++ convertRespLoop jsonOk messages []

/-- Spec-side gathering (from the claim's words) of the text fields a
`RespItem` puts on the wire: the system prompt, user text, assistant
text, the tool-call argument string and the tool-result output.  The
echoed reasoning item is an opaque blob, not an enumerated text field. -/
def respItemTextFields : RespItem → List PyStr
  | RespItem.devMessage t => [t]
  | RespItem.userMessage parts =>
    parts.filterMap fun p =>
      match p with
      | RespInputPart.inputText t => some t
      | _ => none
  | RespItem.assistantText t => [t]
  | RespItem.reasoning _ => []
  | RespItem.functionCall _ _ _ args => [args]
  | RespItem.functionCallOutput _ out => [out]

/-- Spec-side predicate for C5: every enumerated outgoing text field of
the built request is surrogate-free. -/
def allRespTextsSanitized (items : List RespItem) : Bool :=
  items.all fun it => (respItemTextFields it).all surrogateFree

/-- The sanitized fields a `RespItem` actually guarantees: only the
`developer` message and user `input_text` fields go through
`sanitize_surrogates` in this builder. -/
def respItemUserTextsSanitized : RespItem → Bool
  | RespItem.devMessage t => surrogateFree t
  | RespItem.userMessage parts =>
    parts.all fun p =>
      match p with
      | RespInputPart.inputText t => surrogateFree t
      | _ => true
  | _ => true

-- =================================================================================================
-- dot/llm/providers/anthropic.py — message conversion
-- =================================================================================================

/-- A content block of an Anthropic `MessageParam`.  `toolUse.input` is
the raw arguments dict (carried as its serialization); a `toolResult` with
empty content models the `""` the builder sends then.  The
`cache_control` annotations added by
`_add_cache_control_to_last_user_message` change no text payload and are
not modelled. -/
inductive AnthroBlock where
  | text (t : PyStr)
  | image (mime data : PyStr)
  | thinking (t : PyStr) (signature : Option PyStr)
  | toolUse (id name input : PyStr)
  | toolResult (toolUseId : PyStr) (content : List AnthroBlock) (isError : Bool)

/-- An Anthropic `MessageParam`: role plus string-or-blocks content. -/
structure AnthroMessage where
  role : String
  content : PyStr ⊕ List AnthroBlock

/-- The system text block of `_stream_impl`:
`sanitize_surrogates(system_prompt)` with a cache mark. -/
def convert_system_anthropic (sp : PyStr) : PyStr :=
  sanitize_surrogates sp

/-- `AnthropicProvider._convert_user_message`. -/
def convert_user_message_anthropic (content : PyStr ⊕ List UserPart) : AnthroMessage :=
  match content with
  | Sum.inl s => ⟨"user", Sum.inl (sanitize_surrogates s)⟩
  | Sum.inr parts =>
    ⟨"user", Sum.inr (parts.map fun p =>
      match p with
      | UserPart.text t => AnthroBlock.text (sanitize_surrogates t)
      | UserPart.image data mime => AnthroBlock.image mime data)⟩

/-- `AnthropicProvider._convert_assistant_message`. -/
def convert_assistant_message_anthropic (parts : List AssistantPart) : AnthroMessage :=
  ⟨"assistant", Sum.inr (parts.map fun item =>
    match item with
    | AssistantPart.thinking t sig =>
      AnthroBlock.thinking (sanitize_surrogates t) (if pstrTruthy sig then sig else none)
    | AssistantPart.text t => AnthroBlock.text (sanitize_surrogates t)
    | AssistantPart.toolCall id name argsJson => AnthroBlock.toolUse id name argsJson)⟩

/-- `AnthropicProvider._convert_tool_result`. -/
def convert_tool_result_anthropic (toolCallId : PyStr) (content : List TrPart)
    (isError : Bool) : AnthroMessage :=
  let contentParts := content.map fun item =>
    match item with
    | TrPart.text t => AnthroBlock.text (sanitize_surrogates t)
    | TrPart.image data mime => AnthroBlock.image mime data
  ⟨"user", Sum.inr [AnthroBlock.toolResult toolCallId contentParts isError]⟩

/-- The plain-text fields of an Anthropic block as sent on the wire (the
opaque signature, image payloads and the raw `tool_use` input dict are not
enumerated text fields). -/
def anthroBlockTexts : AnthroBlock → List PyStr
  | AnthroBlock.text t => [t]
  | AnthroBlock.image _ _ => []
  | AnthroBlock.thinking t _ => [t]
  | AnthroBlock.toolUse _ _ _ => []
  | AnthroBlock.toolResult _ content _ =>
    content.filterMap fun b =>
      match b with
      | AnthroBlock.text t => some t
      | _ => none

/-- All plain-text fields of a converted Anthropic message. -/
def anthroMessageTexts : AnthroMessage → List PyStr
  | ⟨_, Sum.inl s⟩ => [s]
  | ⟨_, Sum.inr blocks⟩ => blocks.flatMap anthroBlockTexts

end Spec2Proof

namespace Spec2Proof

-- =================================================================================================
-- Theorems
-- =================================================================================================

/-- **C1.** For every `Usage` and configuration `(W, M, B)`, `is_overflow`
returns `true` iff
`input + output + cache_read + cache_write ≥ W - min B M`. -/
theorem c1_is_overflow_iff (u : Usage) (W M B : Int) :
    is_overflow u W M B = true ↔
      u.input_tokens + u.output_tokens + u.cache_read_tokens + u.cache_write_tokens
        ≥ W - min B M := by
  simp [is_overflow]

/-- **C4 counterexample.** The claim says the merged signature is the second
event's signature whenever it is non-empty.  The code keeps the *first*
non-empty signature: merging `ThinkPart "a" (some "x")` with
`ThinkPart "b" (some "y")` yields signature `some "x"`, not `some "y"`. -/
theorem c4_merge_signature_cex :
    (ThinkPart.merge ⟨"a", some "x"⟩ ⟨"b", some "y"⟩).signature = some "x" ∧
      (some "x" : Option String) ≠ some "y" := by
  constructor
  · rfl
  · decide

/-- **C4 (amended).** Merging two adjacent `ThinkPart` events concatenates
the texts and takes the *earlier* non-empty signature: the first event's
signature whenever it is neither `None` nor the empty string, otherwise the
second event's signature (which may itself be `None` or empty). -/
theorem c4_merge_amended (a b : ThinkPart) :
    (a.merge b).think = a.think ++ b.think ∧
      (strTruthy a.signature = true → (a.merge b).signature = a.signature) ∧
      (strTruthy a.signature = false → (a.merge b).signature = b.signature) := by
  refine ⟨rfl, ?_, ?_⟩ <;> intro h <;> simp [ThinkPart.merge, h]

/-- Witness for `c4_merge_amended` at concrete inputs. -/
theorem c4_merge_amended_witness :
    (ThinkPart.merge ⟨"a", none⟩ ⟨"b", some "s"⟩).signature = some "s" :=
  (c4_merge_amended ⟨"a", none⟩ ⟨"b", some "s"⟩).2.2 (by decide)

/-- **C9.** The Copilot dynamic headers set `X-Initiator` to `"user"` when
the message list is empty or ends in a `UserMessage`, and to `"agent"` when
it ends in a `ToolResultMessage` or `AssistantMessage`; and they include
`Copilot-Vision-Request: true` exactly when some message in the list
contains an `ImageContent` part. -/
theorem c9_copilot_dynamic_headers (messages : List Message) :
    (messages = [] → (build_copilot_dynamic_headers messages).xInitiator = "user") ∧
    (∀ c, messages.getLast? = some (Message.user c) →
      (build_copilot_dynamic_headers messages).xInitiator = "user") ∧
    (∀ c, messages.getLast? = some (Message.assistant c) →
      (build_copilot_dynamic_headers messages).xInitiator = "agent") ∧
    (∀ i n c e, messages.getLast? = some (Message.toolResult i n c e) →
      (build_copilot_dynamic_headers messages).xInitiator = "agent") ∧
    (build_copilot_dynamic_headers messages).copilotVisionRequest
      = messages.any messageContainsImage := by
  refine ⟨?_, ?_, ?_, ?_, ?_⟩
  · intro h
    subst h
    rfl
  · intro c h
    simp [build_copilot_dynamic_headers, infer_copilot_initiator, h]
  · intro c h
    simp [build_copilot_dynamic_headers, infer_copilot_initiator, h]
  · intro i n c e h
    simp [build_copilot_dynamic_headers, infer_copilot_initiator, h]
  · show has_copilot_vision_input messages = messages.any messageContainsImage
    unfold has_copilot_vision_input
    congr 1

/-- Witness for `c9_copilot_dynamic_headers`: a list ending in a
tool-result message gets `X-Initiator: agent`, and an image inside it sets
the vision flag. -/
theorem c9_copilot_dynamic_headers_witness :
    (build_copilot_dynamic_headers
        [Message.user (Sum.inl [104]),
         Message.toolResult [105] [110] [TrPart.image [97] [98]] false]).xInitiator
      = "agent" ∧
    (build_copilot_dynamic_headers
        [Message.user (Sum.inl [104]),
         Message.toolResult [105] [110] [TrPart.image [97] [98]] false]).copilotVisionRequest
      = true := by
  constructor
  · exact (c9_copilot_dynamic_headers _).2.2.2.1 [105] [110] [TrPart.image [97] [98]] false rfl
  · have h := (c9_copilot_dynamic_headers
      [Message.user (Sum.inl [104]),
       Message.toolResult [105] [110] [TrPart.image [97] [98]] false]).2.2.2.2
    rw [h]
    rfl

/-- **C7.** For both credential stores, whenever `now + 60s ≥ expires_at`
the stored token is not returned as-is: a refresh is attempted and the
result is exactly the refresh outcome's token — `none` ("not logged in")
when the refresh raised, and the freshly refreshed token on success. -/
theorem c7_refresh_before_returning (c : CopilotCredentials) (c2 : OpenAICredentials)
    (nowMs : Int) (r : Option CopilotCredentials) (r2 : Option OpenAICredentials) :
    (nowMs + 60000 ≥ c.expiresAt →
      get_valid_token (some c) nowMs r = r.map CopilotCredentials.copilotToken) ∧
    (nowMs + 60000 ≥ c2.expires →
      get_valid_openai_token (some c2) nowMs r2 = r2.map OpenAICredentials.access) := by
  constructor
  · intro h
    have h' : nowMs ≥ c.expiresAt - 60000 := by omega
    cases r <;> simp [get_valid_token, h']
  · intro h
    have h' : nowMs ≥ c2.expires - 60000 := by omega
    cases r2 <;> simp [get_valid_openai_token, h']

/-- Witness for `c7_refresh_before_returning`: an expired Copilot token
with a failing refresh yields `none`; an expired ChatGPT token with a
successful refresh yields the refreshed access token. -/
theorem c7_refresh_before_returning_witness :
    get_valid_token (some ⟨"gh", "stale", 1000, none⟩) 941 none = none ∧
    get_valid_openai_token (some ⟨"rt", "stale", 1000, "acct"⟩) 941
        (some ⟨"rt2", "fresh", 99999, "acct"⟩) = some "fresh" := by
  constructor
  · have h := (c7_refresh_before_returning ⟨"gh", "stale", 1000, none⟩
      ⟨"rt", "stale", 1000, "acct"⟩ 941 none (some ⟨"rt2", "fresh", 99999, "acct"⟩)).1
      (by decide)
    rw [h]
    rfl
  · have h := (c7_refresh_before_returning ⟨"gh", "stale", 1000, none⟩
      ⟨"rt", "stale", 1000, "acct"⟩ 941 none (some ⟨"rt2", "fresh", 99999, "acct"⟩)).2
      (by decide)
    rw [h]
    rfl

/-- **C8.** In the ChatGPT PKCE login flow, a state value different from
the one issued never yields an authorization code: the loopback handler
answers such a request with 400 Bad Request and never resolves the code
future (so that code is never exchanged), and the manual-input branch
raises `RuntimeError("OpenAI OAuth state mismatch")` before any exchange. -/
theorem c8_pkce_state_mismatch (issued path : String) (qState qCode : Option String)
    (parsedCode : Option String) (s : String) :
    (qState ≠ some issued →
      (∀ code, handleCallbackRequest issued path qState qCode ≠ CallbackResult.success code)) ∧
    (s ≠ "" → some s ≠ some issued →
      manualLoginStep issued parsedCode (some s) = Except.error "OpenAI OAuth state mismatch") := by
  constructor
  · intro hs code
    unfold handleCallbackRequest
    by_cases hp : path ≠ "/auth/callback"
    · simp [hp]
    · simp only [hp, if_false]
      have : qState ≠ some issued ∨ strTruthy qCode = false := Or.inl hs
      simp [this]
  · intro hne hmis
    have ht : strTruthy (some s) = true := by
      simp [strTruthy, hne]
    simp [manualLoginStep, ht, hmis]

/-- Both branches of `_load_skill_from_dir`'s decision return the full
warning list computed by `_validate_skill`. -/
theorem load_skill_decision_snd (fmName fmDescription : Option String)
    (parent path base : String) :
    (load_skill_decision fmName fmDescription parent path base).2 =
      validate_skill (resolveSkillName fmName parent) (fmDescription.getD "") parent path := by
  unfold load_skill_decision
  by_cases hd : descriptionMissing (fmDescription.getD "") = true
  · simp [hd]
  · simp [hd]

/-- **C6 counterexample.** A skill whose name is invalid (here `"Bad_Name"`:
uppercase and underscore) but whose description is present is *not*
skipped: `_load_skill_from_dir` returns it as a `Skill`, while also
returning warnings — the claim says every invalid entry is excluded. -/
theorem c6_invalid_skill_cex :
    (load_skill_decision (some "Bad_Name") (some "ok desc") "Bad_Name" "/s/SKILL.md" "/s").1
        = some ⟨"Bad_Name", "ok desc", "/s/SKILL.md", "/s"⟩ ∧
      (load_skill_decision (some "Bad_Name") (some "ok desc") "Bad_Name" "/s/SKILL.md" "/s").2
        ≠ [] := by
  constructor
  · rfl
  · decide

/-- **C6 (amended).** Every invalid condition on a discovered skill entry
(over-long name, name outside lowercase a-z/0-9/hyphens, leading/trailing
hyphen, consecutive hyphens, missing description, over-long description)
records a warning, but only a missing (empty or whitespace-only)
description causes the entry to be skipped; entries with an invalid name
or an over-long description are still returned. -/
theorem c6_skill_validation_amended (fmName fmDescription : Option String)
    (parent path base : String) :
    ((load_skill_decision fmName fmDescription parent path base).1 = none ↔
      descriptionMissing (fmDescription.getD "") = true) ∧
    ((resolveSkillName fmName parent).length > 64 →
      SkillWarning.mk path "name exceeds 64 characters"
        ∈ (load_skill_decision fmName fmDescription parent path base).2) ∧
    (pyMatchLowerKebab (resolveSkillName fmName parent) = false →
      SkillWarning.mk path "name must be lowercase a-z, 0-9, hyphens only"
        ∈ (load_skill_decision fmName fmDescription parent path base).2) ∧
    ((resolveSkillName fmName parent).data.head? = some '-' ∨
        (resolveSkillName fmName parent).data.getLast? = some '-' →
      SkillWarning.mk path "name must not start or end with hyphen"
        ∈ (load_skill_decision fmName fmDescription parent path base).2) ∧
    (hasDoubleHyphen (resolveSkillName fmName parent).data = true →
      SkillWarning.mk path "name must not contain consecutive hyphens"
        ∈ (load_skill_decision fmName fmDescription parent path base).2) ∧
    (descriptionMissing (fmDescription.getD "") = true →
      SkillWarning.mk path "description is required"
        ∈ (load_skill_decision fmName fmDescription parent path base).2) ∧
    ((fmDescription.getD "").length > 1024 →
      SkillWarning.mk path "description exceeds 1024 characters"
        ∈ (load_skill_decision fmName fmDescription parent path base).2) := by
  refine ⟨?_, ?_, ?_, ?_, ?_, ?_, ?_⟩
  · unfold load_skill_decision
    by_cases hd : descriptionMissing (fmDescription.getD "") = true
    · simp [hd]
    · simp [hd]
  all_goals
    intro h
    rw [load_skill_decision_snd]
    simp [validate_skill, h, List.mem_append]

/-- Helper: a Lean `Char`'s code point is never a surrogate. -/
theorem isSurrogateCode_toNat_false (c : Char) : isSurrogateCode c.toNat = false := by
  have hv := c.valid
  unfold UInt32.isValidChar Nat.isValidChar at hv
  unfold Char.toNat
  unfold isSurrogateCode
  rcases hv with h | ⟨h1, _⟩
  · simp only [Bool.and_eq_false_iff, decide_eq_false_iff_not]
    left
    omega
  · simp only [Bool.and_eq_false_iff, decide_eq_false_iff_not]
    right
    omega

/-- Helper: Lean-string-literal texts are surrogate-free. -/
theorem pyOfString_surrogateFree (s : String) : surrogateFree (pyOfString s) = true := by
  rw [surrogateFree, pyOfString, List.all_eq_true]
  intro c hc
  rw [List.mem_map] at hc
  obtain ⟨ch, _, hch⟩ := hc
  rw [← hch]
  simp [isSurrogateCode_toNat_false]

/-- Helper: `sanitize_surrogates` leaves no surrogate behind. -/
theorem surrogateFree_sanitize (t : PyStr) : surrogateFree (sanitize_surrogates t) = true := by
  rw [surrogateFree, sanitize_surrogates, List.all_eq_true]
  intro c hc
  rw [List.mem_map] at hc
  obtain ⟨d, _, hd⟩ := hc
  rw [← hd]
  by_cases h : isSurrogateCode d = true
  · simp only [h, if_true]
    decide
  · simp only [Bool.not_eq_true] at h
    simp [h]

/-- Helper: `all` over a `flatMap`. -/
theorem all_flatMap_of {α β : Type} (l : List α) (f : α → List β) (p : β → Bool)
    (h : ∀ x ∈ l, ((f x).all p) = true) : ((l.flatMap f).all p) = true := by
  rw [List.all_eq_true]
  intro a ha
  rw [List.mem_flatMap] at ha
  obtain ⟨x, hx, hax⟩ := ha
  exact List.all_eq_true.mp (h x hx) a hax

/-- Helper: the flushed pending-image message is among the sanitized
items (its only text is the fixed ASCII caption). -/
theorem flushPendingImages_sanitized (pending : List (PyStr × PyStr)) :
    (flushPendingImages pending).all respItemUserTextsSanitized = true := by
  unfold flushPendingImages
  by_cases hp : pending ≠ []
  · rw [if_pos hp]
    simp only [List.all_cons, List.all_nil, Bool.and_true]
    unfold create_image_user_message respItemUserTextsSanitized
    simp only [List.all_cons]
    rw [pyOfString_surrogateFree, Bool.true_and, List.all_eq_true]
    intro p hp2
    rw [List.mem_map] at hp2
    obtain ⟨mi, _, hmi⟩ := hp2
    rw [← hmi]
  · rw [if_neg hp]
    rfl

/-- Helper: every `developer`/user `input_text` field produced by the
message loop of `_convert_messages` is sanitized, for any pending
images. -/
theorem convertRespLoop_user_texts_sanitized (jsonOk : PyStr → Bool)
    (messages : List Message) (pending : List (PyStr × PyStr)) :
    ((convertRespLoop jsonOk messages pending).all respItemUserTextsSanitized) = true := by
  induction messages generalizing pending with
  | nil => exact flushPendingImages_sanitized pending
  | cons msg rest ih =>
    cases msg with
    | user content =>
      show (((flushPendingImages pending) ++ _ ++ _).all _) = true
      simp only [List.all_append, Bool.and_eq_true]
      refine ⟨⟨flushPendingImages_sanitized pending, ?_⟩, ih []⟩
      cases content with
      | inl s =>
        simp [respItemUserTextsSanitized, surrogateFree_sanitize]
      | inr parts =>
        dsimp only
        by_cases hc : (parts.map fun p =>
            match p with
            | UserPart.text t => RespInputPart.inputText (sanitize_surrogates t)
            | UserPart.image data mime => RespInputPart.inputImage mime data) ≠ []
        · rw [if_pos hc]
          simp only [List.all_cons, List.all_nil, Bool.and_true]
          unfold respItemUserTextsSanitized
          rw [List.all_eq_true]
          intro p hp
          rw [List.mem_map] at hp
          obtain ⟨q, _, hq⟩ := hp
          cases q <;> simp [← hq, surrogateFree_sanitize]
        · rw [if_neg hc]
          rfl
    | assistant parts =>
      show (((flushPendingImages pending) ++ _ ++ _).all _) = true
      simp only [List.all_append, Bool.and_eq_true]
      refine ⟨⟨flushPendingImages_sanitized pending, ?_⟩, ih []⟩
      refine all_flatMap_of _ _ _ ?_
      intro b _
      cases b with
      | thinking t sig =>
        cases sig with
        | none => rfl
        | some s =>
          by_cases hs : s ≠ [] ∧ jsonOk s = true
          · simp [hs, respItemUserTextsSanitized]
          · simp [hs]
      | text t => rfl
      | toolCall id name args => rfl
    | toolResult tcid tname content isError =>
      show ((RespItem.functionCallOutput _ _ :: _).all _) = true
      simp only [List.all_cons, Bool.and_eq_true]
      exact ⟨rfl, ih _⟩

/-- **C5 counterexample.** The claim says every enumerated outgoing text
field has lone surrogates replaced.  In
`OpenAIResponsesProvider._convert_messages`, an assistant text block is
placed on the wire verbatim: converting an assistant message whose text is
the lone surrogate U+D800 yields an `output_text` field that still holds
U+D800. -/
theorem c5_surrogate_sanitization_cex :
    convert_messages_responses (fun _ => false) none
        [Message.assistant [AssistantPart.text [0xD800]]]
      = [RespItem.assistantText [0xD800]] ∧
    allRespTextsSanitized (convert_messages_responses (fun _ => false) none
        [Message.assistant [AssistantPart.text [0xD800]]]) = false := by
  constructor
  · rfl
  · decide

/-- **C5 (amended).** In the OpenAI-Responses builder, the system prompt
and every user `input_text` field are sanitized, while assistant text and
tool-result output are placed in the request verbatim (unsanitized); in
the Anthropic builder, the system prompt, user text, assistant text,
assistant thinking and tool-result text are all sanitized.  Tool-call
arguments travel as the JSON-serialized arguments object in both and go
through no surrogate replacement. -/
theorem c5_sanitization_amended (jsonOk : PyStr → Bool) (sp : Option PyStr)
    (messages : List Message) (parts : List AssistantPart) (t : PyStr)
    (tcid tname : PyStr) (err : Bool) (ucontent : PyStr ⊕ List UserPart)
    (aparts : List AssistantPart) (trcontent : List TrPart) (sys : PyStr) :
    ((convert_messages_responses jsonOk sp messages).all respItemUserTextsSanitized = true) ∧
    (AssistantPart.text t ∈ parts →
      RespItem.assistantText t
        ∈ convert_messages_responses jsonOk none [Message.assistant parts]) ∧
    (convert_messages_responses jsonOk none
        [Message.toolResult tcid tname [TrPart.text t] err]
      = [RespItem.functionCallOutput (tcid.takeWhile (· ≠ 124)) t]) ∧
    (surrogateFree (convert_system_anthropic sys) = true) ∧
    ((anthroMessageTexts (convert_user_message_anthropic ucontent)).all surrogateFree = true) ∧
    ((anthroMessageTexts (convert_assistant_message_anthropic aparts)).all surrogateFree
      = true) ∧
    ((anthroMessageTexts (convert_tool_result_anthropic tcid trcontent err)).all surrogateFree
      = true) := by
  refine ⟨?_, ?_, ?_, ?_, ?_, ?_, ?_⟩
  · unfold convert_messages_responses
    rw [List.all_append, Bool.and_eq_true]
    refine ⟨?_, convertRespLoop_user_texts_sanitized jsonOk messages []⟩
    cases sp with
    | none => rfl
    | some s =>
      by_cases hs : s ≠ []
      · simp [hs, respItemUserTextsSanitized, surrogateFree_sanitize]
      · simp [hs]
  · intro ht
    show RespItem.assistantText t ∈ [] ++ (flushPendingImages [] ++ _ ++ _)
    simp only [List.nil_append, flushPendingImages, ne_eq, not_true_eq_false, if_false,
      List.append_nil]
    rw [List.mem_append, List.mem_flatMap]
    exact Or.inl ⟨AssistantPart.text t, ht, by simp⟩
  · rfl
  · exact surrogateFree_sanitize sys
  · cases ucontent with
    | inl s =>
      show ([sanitize_surrogates s].all surrogateFree) = true
      simp [surrogateFree_sanitize]
    | inr uparts =>
      show ((List.map _ uparts).flatMap anthroBlockTexts).all surrogateFree = true
      refine all_flatMap_of _ _ _ ?_
      intro b hb
      rw [List.mem_map] at hb
      obtain ⟨p, _, hp⟩ := hb
      cases p <;> simp [← hp, anthroBlockTexts, surrogateFree_sanitize]
  · show ((List.map _ aparts).flatMap anthroBlockTexts).all surrogateFree = true
    refine all_flatMap_of _ _ _ ?_
    intro b hb
    rw [List.mem_map] at hb
    obtain ⟨p, _, hp⟩ := hb
    cases p <;> simp [← hp, anthroBlockTexts, surrogateFree_sanitize]
  · show (([AnthroBlock.toolResult _ _ _] : List AnthroBlock).flatMap
        anthroBlockTexts).all surrogateFree = true
    refine all_flatMap_of _ _ _ ?_
    intro b hb
    rw [List.mem_singleton] at hb
    subst hb
    unfold anthroBlockTexts
    rw [List.all_eq_true]
    intro x hx
    rw [List.mem_filterMap] at hx
    obtain ⟨blk, hblk, hbx⟩ := hx
    rw [List.mem_map] at hblk
    obtain ⟨item, _, hitem⟩ := hblk
    cases item with
    | text u =>
      rw [← hitem] at hbx
      simp only [Option.some.injEq] at hbx
      rw [← hbx]
      exact surrogateFree_sanitize u
    | image d m =>
      rw [← hitem] at hbx
      simp at hbx

/-- Witness for `c5_sanitization_amended`: the assistant text `"x"` is
passed through verbatim by the OpenAI-Responses builder. -/
theorem c5_sanitization_amended_witness :
    RespItem.assistantText [120]
      ∈ convert_messages_responses (fun _ => false) none
          [Message.assistant [AssistantPart.text [120]]] :=
  (c5_sanitization_amended (fun _ => false) none [] [AssistantPart.text [120]] [120]
    [] [] false (Sum.inl []) [] [] []).2.1 (by decide)

/-- Helper: an `all` predicate survives `dropLast`. -/
theorem all_dropLast {α : Type} (l : List α) (f : α → Bool) (h : l.all f = true) :
    l.dropLast.all f = true := by
  rw [List.all_eq_true] at h ⊢
  exact fun x hx => h x ((List.dropLast_sublist l).subset hx)

/-- Helper: a list whose elements all fail `f` filters to `[]` under `f`. -/
theorem filter_eq_nil_of_all_not {α : Type} (l : List α) (f : α → Bool)
    (h : (l.all fun x => !f x) = true) : l.filter f = [] := by
  rw [List.filter_eq_nil_iff]
  intro a ha
  have := List.all_eq_true.mp h a ha
  simp at this
  simp [this]

/-- Every step of `_process_stream` either yields only non-terminal parts
and continues, or returns (successor `none`) having yielded at most one
part. -/
theorem stepResp_cases (st : RespStreamState) (e : RespEvent) :
    ((stepRespEvent st e).1.all fun p => !p.isTerminal) = true ∨
      ((stepRespEvent st e).2 = none ∧ (stepRespEvent st e).1.length ≤ 1) := by
  cases e <;> simp only [stepRespEvent] <;>
    first
      | (left; rfl)
      | (right; exact ⟨rfl, Nat.le_refl 1⟩)
      | (right; refine ⟨?_, ?_⟩ <;> (simp; done))
      | (repeat' split
         all_goals
           first
             | (left; rfl)
             | (left; simp [SPart.isTerminal]; done)
             | (right; exact ⟨rfl, Nat.le_refl 1⟩)
             | (right; refine ⟨?_, ?_⟩ <;> (simp; done)))

/-- Every step of `_stream_codex` either yields only non-terminal parts
and continues, or returns having yielded at most one part. -/
theorem stepCodex_cases (st : CodexStreamState) (e : CodexEvent) :
    ((stepCodexEvent st e).1.all fun p => !p.isTerminal) = true ∨
      ((stepCodexEvent st e).2 = none ∧ (stepCodexEvent st e).1.length ≤ 1) := by
  cases e <;> simp only [stepCodexEvent] <;>
    first
      | (left; rfl)
      | (right; exact ⟨rfl, Nat.le_refl 1⟩)
      | (right; refine ⟨?_, ?_⟩ <;> (simp; done))
      | (repeat' split
         all_goals
           first
             | (left; rfl)
             | (left; simp [SPart.isTerminal]; done)
             | (right; exact ⟨rfl, Nat.le_refl 1⟩)
             | (right; refine ⟨?_, ?_⟩ <;> (simp; done)))

/-- All parts before the last one emitted by `_process_stream` are
non-terminal, from any parser state. -/
theorem processResp_dropLast_nonterminal (evs : List RespEvent) (st : RespStreamState) :
    ((processRespEvents st evs).dropLast.all fun p => !p.isTerminal) = true := by
  induction evs generalizing st with
  | nil => rfl
  | cons e rest ih =>
    unfold processRespEvents
    rcases hc : stepRespEvent st e with ⟨parts, st?⟩
    have hcase := stepResp_cases st e
    rw [hc] at hcase
    cases st? with
    | none =>
      rcases hcase with h | ⟨_, hlen⟩
      · exact all_dropLast _ _ h
      · match parts, hlen with
        | [], _ => rfl
        | [a], _ => rfl
    | some st' =>
      rcases hcase with h | ⟨hn, _⟩
      · show ((parts ++ processRespEvents st' rest).dropLast.all _) = true
        by_cases hr : processRespEvents st' rest = []
        · rw [hr, List.append_nil]
          exact all_dropLast _ _ h
        · rw [List.dropLast_append_of_ne_nil _ hr, List.all_append]
          exact by simp [h, ih st']
      · exact absurd hn (by simp)

/-- `_process_stream` emits at most one terminal part, from any state. -/
theorem processResp_terminal_count (evs : List RespEvent) (st : RespStreamState) :
    ((processRespEvents st evs).filter fun p => p.isTerminal).length ≤ 1 := by
  induction evs generalizing st with
  | nil => exact Nat.zero_le 1
  | cons e rest ih =>
    unfold processRespEvents
    rcases hc : stepRespEvent st e with ⟨parts, st?⟩
    have hcase := stepResp_cases st e
    rw [hc] at hcase
    cases st? with
    | none =>
      rcases hcase with h | ⟨_, hlen⟩
      · show (parts.filter _).length ≤ 1
        rw [filter_eq_nil_of_all_not _ _ h]
        exact Nat.zero_le 1
      · exact Nat.le_trans (List.length_filter_le _ parts) hlen
    | some st' =>
      rcases hcase with h | ⟨hn, _⟩
      · show ((parts ++ processRespEvents st' rest).filter _).length ≤ 1
        rw [List.filter_append, filter_eq_nil_of_all_not _ _ h, List.nil_append]
        exact ih st'
      · exact absurd hn (by simp)

/-- All parts before the last one emitted by `_stream_codex`'s event loop
are non-terminal, from any parser state. -/
theorem processCodex_dropLast_nonterminal (evs : List CodexEvent) (st : CodexStreamState) :
    ((processCodexEvents st evs).dropLast.all fun p => !p.isTerminal) = true := by
  induction evs generalizing st with
  | nil => rfl
  | cons e rest ih =>
    unfold processCodexEvents
    rcases hc : stepCodexEvent st e with ⟨parts, st?⟩
    have hcase := stepCodex_cases st e
    rw [hc] at hcase
    cases st? with
    | none =>
      rcases hcase with h | ⟨_, hlen⟩
      · exact all_dropLast _ _ h
      · match parts, hlen with
        | [], _ => rfl
        | [a], _ => rfl
    | some st' =>
      rcases hcase with h | ⟨hn, _⟩
      · show ((parts ++ processCodexEvents st' rest).dropLast.all _) = true
        by_cases hr : processCodexEvents st' rest = []
        · rw [hr, List.append_nil]
          exact all_dropLast _ _ h
        · rw [List.dropLast_append_of_ne_nil _ hr, List.all_append]
          exact by simp [h, ih st']
      · exact absurd hn (by simp)

/-- `_stream_codex`'s event loop emits at most one terminal part. -/
theorem processCodex_terminal_count (evs : List CodexEvent) (st : CodexStreamState) :
    ((processCodexEvents st evs).filter fun p => p.isTerminal).length ≤ 1 := by
  induction evs generalizing st with
  | nil => exact Nat.zero_le 1
  | cons e rest ih =>
    unfold processCodexEvents
    rcases hc : stepCodexEvent st e with ⟨parts, st?⟩
    have hcase := stepCodex_cases st e
    rw [hc] at hcase
    cases st? with
    | none =>
      rcases hcase with h | ⟨_, hlen⟩
      · show (parts.filter _).length ≤ 1
        rw [filter_eq_nil_of_all_not _ _ h]
        exact Nat.zero_le 1
      · exact Nat.le_trans (List.length_filter_le _ parts) hlen
    | some st' =>
      rcases hcase with h | ⟨hn, _⟩
      · show ((parts ++ processCodexEvents st' rest).filter _).length ≤ 1
        rw [List.filter_append, filter_eq_nil_of_all_not _ _ h, List.nil_append]
        exact ih st'
      · exact absurd hn (by simp)

/-- **C10.** Both stream parsers yield at most one terminal part
(`StreamDone`/`StreamError`) and nothing of any kind after it, and an
exception raised while an event is being handled produces a single
`StreamError` that ends the stream. -/
theorem c10_at_most_one_terminal_part :
    (∀ evs : List RespEvent,
      ((processRespEvents initRespStreamState evs).dropLast.all fun p => !p.isTerminal) = true ∧
      ((processRespEvents initRespStreamState evs).filter fun p => p.isTerminal).length ≤ 1) ∧
    (∀ (st : RespStreamState) (msg : Str) (rest : List RespEvent),
      processRespEvents st (RespEvent.raised msg :: rest) = [SPart.streamError msg]) ∧
    (∀ (pre : Option Str) (cevs : List CodexEvent),
      ((streamCodex pre cevs).dropLast.all fun p => !p.isTerminal) = true ∧
      ((streamCodex pre cevs).filter fun p => p.isTerminal).length ≤ 1) ∧
    (∀ (st : CodexStreamState) (msg : Str) (rest : List CodexEvent),
      processCodexEvents st (CodexEvent.raised msg :: rest) = [SPart.streamError msg]) := by
  refine ⟨fun evs => ⟨?_, ?_⟩, fun st msg rest => rfl, fun pre cevs => ⟨?_, ?_⟩,
    fun st msg rest => rfl⟩
  · exact processResp_dropLast_nonterminal evs initRespStreamState
  · exact processResp_terminal_count evs initRespStreamState
  · cases pre with
    | none => exact processCodex_dropLast_nonterminal cevs initCodexStreamState
    | some e => rfl
  · cases pre with
    | none => exact processCodex_terminal_count cevs initCodexStreamState
    | some e => exact Nat.le_refl 1

/-- **C2.** When a terminal `arguments.done` / `output_item.done` event
carries an authoritative argument string that extends the accumulated
prefix, exactly the missing suffix is emitted as an arguments delta (no
delta at all when the suffix is empty) and the accumulator becomes the
final string; when it is not an extension, the accumulator is overwritten
with the authoritative string and the full final string is emitted as the
delta.  Both reconciliation branches behave identically. -/
theorem c2_args_done_reconciliation (current finalArgs : Str) :
    (∀ suffix, finalArgs = current ++ suffix →
      reconcileArgsDone current finalArgs
          = (finalArgs, if suffix = [] then [] else [suffix]) ∧
        reconcileItemDone current finalArgs
          = (finalArgs, if suffix = [] then [] else [suffix])) ∧
    ((¬ ∃ suffix, finalArgs = current ++ suffix) →
      reconcileArgsDone current finalArgs = (finalArgs, [finalArgs]) ∧
        reconcileItemDone current finalArgs = (finalArgs, [finalArgs])) := by
  constructor
  · intro suffix h
    subst h
    have hpre : current.isPrefixOf (current ++ suffix) = true :=
      List.isPrefixOf_iff_prefix.mpr ⟨suffix, rfl⟩
    have hdrop : (current ++ suffix).drop current.length = suffix := List.drop_left _ _
    by_cases hs : suffix = []
    · subst hs
      constructor <;> simp [reconcileArgsDone, reconcileItemDone, hpre, hdrop]
    · constructor <;> simp [reconcileArgsDone, reconcileItemDone, hpre, hdrop, hs]
  · intro h
    have hnp : current.isPrefixOf finalArgs = false := by
      rw [Bool.eq_false_iff]
      intro hc
      rcases List.isPrefixOf_iff_prefix.mp hc with ⟨t, ht⟩
      exact h ⟨t, ht.symm⟩
    have hne : finalArgs ≠ current := by
      intro he
      exact h ⟨[], by simp [he]⟩
    constructor <;> simp [reconcileArgsDone, reconcileItemDone, hnp, hne]

/-- Witness for `c2_args_done_reconciliation`: extending `"ab"` by the
authoritative `"abc"` emits exactly the suffix `"c"`; the non-extension
`"xz"` over accumulated `"ab"` overwrites and emits the whole string. -/
theorem c2_args_done_reconciliation_witness :
    reconcileArgsDone "ab".data "abc".data = ("abc".data, [['c']]) ∧
      reconcileArgsDone "ab".data "xz".data = ("xz".data, ["xz".data]) := by
  constructor
  · have h := ((c2_args_done_reconciliation "ab".data "abc".data).1 ['c'] (by decide)).1
    simpa using h
  · refine ((c2_args_done_reconciliation "ab".data "xz".data).2 ?_).1
    rintro ⟨s, hs⟩
    have h0 : "xz".data = ['x', 'z'] := by decide
    have h1 : "ab".data = ['a', 'b'] := by decide
    rw [h0, h1] at hs
    simp at hs

/-- **C3.** When at least one tool call has been opened (the tool-call
accumulator is non-empty) and the terminal event's status maps to stop
reason `stop`, both stream parsers emit `StreamDone` with stop reason
`tool_use` instead of `stop`. -/
theorem c3_stop_upgraded_to_tool_use (st : RespStreamState) (st2 : CodexStreamState)
    (status status2 : Option Str) (rest : List RespEvent) (rest2 : List CodexEvent) :
    (st.toolCalls ≠ [] → mapRespStopReason status = StopReason.stop →
      processRespEvents st (RespEvent.completed status :: rest)
        = [SPart.streamDone StopReason.toolUse]) ∧
    (st2.toolCalls ≠ [] → mapCodexStopReason status2 = StopReason.stop →
      processCodexEvents st2 (CodexEvent.completed (some status2) :: rest2)
        = [SPart.streamDone StopReason.toolUse]) := by
  constructor
  · intro h1 h2
    unfold processRespEvents
    simp [stepRespEvent, h1, h2]
  · intro h1 h2
    unfold processCodexEvents
    simp [stepCodexEvent, h1, h2]

/-- Witness for `c3_stop_upgraded_to_tool_use`: a state with one open tool
call and a `"completed"` status yields `StreamDone tool_use` in both
parsers. -/
theorem c3_stop_upgraded_to_tool_use_witness :
    processRespEvents
        { initRespStreamState with toolCalls := [(['a'], ⟨['a'], ['n'], [], 0⟩)] }
        [RespEvent.completed (some "completed".data)]
      = [SPart.streamDone StopReason.toolUse] ∧
    processCodexEvents
        { initCodexStreamState with toolCalls := [(['a'], ⟨['a'], ['n'], [], 0⟩)] }
        [CodexEvent.completed (some (some "completed".data))]
      = [SPart.streamDone StopReason.toolUse] := by
  constructor
  · exact (c3_stop_upgraded_to_tool_use
      { initRespStreamState with toolCalls := [(['a'], ⟨['a'], ['n'], [], 0⟩)] }
      { initCodexStreamState with toolCalls := [(['a'], ⟨['a'], ['n'], [], 0⟩)] }
      (some "completed".data) (some "completed".data) [] []).1 (by decide) (by decide)
  · exact (c3_stop_upgraded_to_tool_use
      { initRespStreamState with toolCalls := [(['a'], ⟨['a'], ['n'], [], 0⟩)] }
      { initCodexStreamState with toolCalls := [(['a'], ⟨['a'], ['n'], [], 0⟩)] }
      (some "completed".data) (some "completed".data) [] []).2 (by decide) (by decide)

/-- Witness for `c6_skill_validation_amended`: a name with consecutive
hyphens records the corresponding warning. -/
theorem c6_skill_validation_amended_witness :
    SkillWarning.mk "/p" "name must not contain consecutive hyphens"
      ∈ (load_skill_decision (some "bad--name") (some "ok") "bad--name" "/p" "/b").2 :=
  (c6_skill_validation_amended (some "bad--name") (some "ok") "bad--name" "/p" "/b").2.2.2.2.1
    (by decide)

/-- Witness for `c8_pkce_state_mismatch` at concrete inputs. -/
theorem c8_pkce_state_mismatch_witness :
    (∀ code, handleCallbackRequest "st-issued" "/auth/callback" (some "st-wrong") (some "c")
        ≠ CallbackResult.success code) ∧
    manualLoginStep "st-issued" (some "c") (some "st-wrong")
        = Except.error "OpenAI OAuth state mismatch" := by
  constructor
  · exact (c8_pkce_state_mismatch "st-issued" "/auth/callback" (some "st-wrong") (some "c")
      (some "c") "st-wrong").1 (by decide)
  · exact (c8_pkce_state_mismatch "st-issued" "/auth/callback" (some "st-wrong") (some "c")
      (some "c") "st-wrong").2 (by decide) (by decide)

end Spec2Proof
